import Mathlib

/-!
Verification of the value-type classification library (`src/index.ts`).

Shallow embedding: JavaScript runtime values are modelled by the inductive
type `JSValue`; each source function (`getType`, `getRealType`,
`allItemsHaveTheSameType`, `everyItemHasAUniqueRealType`, `compareFn`,
`countRealTypes`) is translated to a Lean definition of the same name.

Host-runtime primitives that the source calls (`typeof`, `instanceof`,
`isNaN`, `Math.abs(x) === Infinity`, `Object.prototype.toString`,
`String.prototype.toLowerCase`, `new Set(...).size`, `Map` insertion, and
`Array.prototype.sort`) are modelled by explicitly-named definitions whose
behaviour follows the ECMAScript semantics on the shapes covered by the
model.
-/

/-- JavaScript numbers, abstracted to the distinctions the classifier makes:
the NaN sentinel, the two infinities, and finite numbers (payload a rational,
standing in for the finite doubles; the classifier never inspects it). -/
inductive JSNum where
  | nan
  | posInf
  | negInf
  | finite (q : ℚ)
deriving DecidableEq

/-- Brands of JavaScript objects (values with `typeof` = "object" other than
`null`), covering the object shapes exercised by the repository: plain
objects, arrays, boxed primitives, the built-in containers the classifier
tests with `instanceof`, and the seven typed-array views from the tests. -/
inductive ObjKind where
  | plain
  | array
  | boxedNumber
  | boxedString
  | boxedBoolean
  | date
  | set
  | map
  | weakmap
  | weakset
  | regexp
  | error
  | int8Array
  | uint8Array
  | int16Array
  | uint16Array
  | int32Array
  | uint32Array
  | uint8ClampedArray
deriving DecidableEq

/-- JavaScript runtime values. `sym` and `fn` carry an identity tag only;
objects carry their brand. Object / array contents are not modelled because
the classifier never traverses them (classification is top-level only). -/
inductive JSValue where
  | bool (b : Bool)
  | num (n : JSNum)
  | str (s : String)
  | undef
  | null
  | sym (id : Nat)
  | fn (id : Nat)
  | obj (k : ObjKind)
deriving DecidableEq

/-- Source `getType`: `return typeof value`. The result follows the
ECMAScript `typeof` table; note `typeof null` is "object". -/
def getType : JSValue → String
  | .bool _ => "boolean"
  | .num _ => "number"
  | .str _ => "string"
  | .undef => "undefined"
  | .null => "object"
  | .sym _ => "symbol"
  | .fn _ => "function"
  | .obj _ => "object"

/-- Models the source's `isNaN(value)` call. The classifier only applies it
to values whose `typeof` is "number", where it is true exactly for NaN. -/
def js_isNaN : JSValue → Bool
  | .num .nan => true
  | _ => false

/-- Models the source's `Math.abs(value) === Infinity` test: true exactly for
the two infinities (`Math.abs(NaN)` is NaN, finite values stay finite). -/
def js_absIsInfinity : JSValue → Bool
  | .num .posInf => true
  | .num .negInf => true
  | _ => false

/-- Models `value instanceof Array` (typed-array views are not `Array`). -/
def instanceofArray : JSValue → Bool
  | .obj .array => true
  | _ => false

/-- Models `value instanceof Number` (true only for boxed-number objects;
primitive numbers are not instances). -/
def instanceofNumber : JSValue → Bool
  | .obj .boxedNumber => true
  | _ => false

/-- Models `value instanceof Date`. -/
def instanceofDate : JSValue → Bool
  | .obj .date => true
  | _ => false

/-- Models `value instanceof Set`. -/
def instanceofSet : JSValue → Bool
  | .obj .set => true
  | _ => false

/-- Models `value instanceof Map`. -/
def instanceofMap : JSValue → Bool
  | .obj .map => true
  | _ => false

/-- Models `value instanceof WeakMap`. -/
def instanceofWeakMap : JSValue → Bool
  | .obj .weakmap => true
  | _ => false

/-- Models `value instanceof WeakSet`. -/
def instanceofWeakSet : JSValue → Bool
  | .obj .weakset => true
  | _ => false

/-- Models `value instanceof RegExp`. -/
def instanceofRegExp : JSValue → Bool
  | .obj .regexp => true
  | _ => false

/-- Models `value instanceof Error`. -/
def instanceofError : JSValue → Bool
  | .obj .error => true
  | _ => false

/-- The builtin tag of an object brand, as produced by
`Object.prototype.toString` between "[object " and "]". -/
def objTag : ObjKind → String
  | .plain => "Object"
  | .array => "Array"
  | .boxedNumber => "Number"
  | .boxedString => "String"
  | .boxedBoolean => "Boolean"
  | .date => "Date"
  | .set => "Set"
  | .map => "Map"
  | .weakmap => "WeakMap"
  | .weakset => "WeakSet"
  | .regexp => "RegExp"
  | .error => "Error"
  | .int8Array => "Int8Array"
  | .uint8Array => "Uint8Array"
  | .int16Array => "Int16Array"
  | .uint16Array => "Uint16Array"
  | .int32Array => "Int32Array"
  | .uint32Array => "Uint32Array"
  | .uint8ClampedArray => "Uint8ClampedArray"

/-- Models `Object.prototype.toString.call(value).slice(8, -1)`: the text
between "[object " and "]" per the ECMAScript specification (in particular
"Null" for `null` and "Undefined" for `undefined`). -/
def protoToStringTag : JSValue → String
  | .bool _ => "Boolean"
  | .num _ => "Number"
  | .str _ => "String"
  | .undef => "Undefined"
  | .null => "Null"
  | .sym _ => "Symbol"
  | .fn _ => "Function"
  | .obj k => objTag k

/-- Models `String.prototype.toLowerCase` by per-character lowercasing (all
tags produced by `protoToStringTag` are ASCII, where this coincides with the
ECMAScript definition). -/
def jsToLowerCase (s : String) : String :=
  String.mk (s.data.map Char.toLower)

/-- Source `getRealType`, translated branch for branch: the numeric
special cases, the verbatim primitive tags, then the `instanceof` chain for
objects (including the source's duplicated `Date` check) with the lower-cased
`Object.prototype.toString` tag as fallback. -/
def getRealType (value : JSValue) : String :=
  let typeOfValue : String := getType value
  if typeOfValue = "number" then
    if js_isNaN value then "NaN"
    else if js_absIsInfinity value then "Infinity"
    else "number"
  else if typeOfValue = "string" then "string"
  else if typeOfValue = "boolean" then "boolean"
  else if typeOfValue = "undefined" then "undefined"
  else if typeOfValue = "symbol" then "symbol"
  else if typeOfValue = "function" then "function"
  else
    if instanceofArray value then "array"
    else if instanceofNumber value then "number"
    else if instanceofDate value then "date"
    else if instanceofSet value then "set"
    else if instanceofMap value then "map"
    else if instanceofWeakMap value then "weakmap"
    else if instanceofWeakSet value then "weakset"
    else if instanceofRegExp value then "regexp"
    else if instanceofError value then "error"
    else if instanceofDate value then "date"
    else jsToLowerCase (protoToStringTag value)

/-- Models `new Set(l).size`: the number of distinct elements of `l`. -/
def setSize (l : List String) : Nat :=
  l.dedup.length

/-- Source `getTypesOfItems`: `arr.map((item) => getType(item))`. -/
def getTypesOfItems (arr : List JSValue) : List String :=
  arr.map (fun item => getType item)

/-- Source `allItemsHaveTheSameType`:
`new Set(arr.map((item) => getType(item))).size == 1`. -/
def allItemsHaveTheSameType (arr : List JSValue) : Bool :=
  setSize (arr.map (fun item => getType item)) == 1

/-- Source `getRealTypesOfItems`:
`arr.map((item) => getRealType(item))`. -/
def getRealTypesOfItems (arr : List JSValue) : List String :=
  arr.map (fun item => getRealType item)

/-- Source `everyItemHasAUniqueRealType`:
`new Set(arr.map((item) => getRealType(item))).size === arr.length`. -/
def everyItemHasAUniqueRealType (arr : List JSValue) : Bool :=
  setSize (arr.map (fun item => getRealType item)) == arr.length

/-- Models the JavaScript `<` comparison on strings viewed as their character
lists: lexicographic by code point, where a proper prefix is smaller. (JS
compares UTF-16 code units; on the classifier's ASCII tags, and on all of the
Basic Multilingual Plane, code units and code points coincide.) -/
def jsStrLtChars : List Char → List Char → Bool
  | [], [] => false
  | [], _ :: _ => true
  | _ :: _, [] => false
  | a :: as, b :: bs =>
      decide (a.toNat < b.toNat) || ((a.toNat == b.toNat) && jsStrLtChars as bs)

/-- Models `a < b` on JavaScript strings. -/
def jsStrLt (a b : String) : Bool :=
  jsStrLtChars a.data b.data

/-- Source `compareFn`: `-1` when `a[0] < b[0]`, `1` when
`a[0] > b[0]`, `0` otherwise; entries are (TypeTag, count) pairs and the
string comparison is `jsStrLt` (`a[0] > b[0]` is `b[0] < a[0]`). -/
def compareFn (a b : String × Nat) : Int :=
  if jsStrLt a.1 b.1 then -1
  else if jsStrLt b.1 a.1 then 1
  else 0

/-- The ordering induced by `compareFn` on entries: `compareFn a b ≤ 0`.
`Array.prototype.sort(compareFn)` produces a list sorted by this relation. -/
def entryLE (a b : String × Nat) : Prop :=
  compareFn a b ≤ 0

instance : DecidableRel entryLE :=
  fun a b => inferInstanceAs (Decidable (compareFn a b ≤ 0))

/-- Models `map.set(k, (map.get(k) || 0) + 1)` on a JavaScript `Map`
represented as its insertion-ordered entry list: an existing key keeps its
position and its count is bumped, a new key is appended with count 1. -/
def insertCount : List (String × Nat) → String → List (String × Nat)
  | [], k => [(k, 1)]
  | p :: rest, k =>
      if p.1 = k then (p.1, p.2 + 1) :: rest
      else p :: insertCount rest k

/-- The `Map`-building loop of `countRealTypes`: `arr.forEach` inserting
`getRealType(element)` into the map. -/
def accumCounts (arr : List JSValue) : List (String × Nat) :=
  arr.foldl (fun m element => insertCount m (getRealType element)) []

/-- Source `countRealTypes`: build the count map, then
`[...map].sort(compareFn)`. `Array.prototype.sort` is a stable comparison
sort, modelled by insertion sort with the relation `compareFn a b ≤ 0`. -/
def countRealTypes (arr : List JSValue) : List (String × Nat) :=
  List.insertionSort entryLE (accumCounts arr)

/-- The keys of a count map, in order. -/
def keysOf (m : List (String × Nat)) : List String :=
  m.map Prod.fst

/-- The total of the counts in a count map. -/
def sumCounts (m : List (String × Nat)) : Nat :=
  (m.map Prod.snd).sum

/-- Models `map.get(k) || 0`: the count stored for `k`, or 0 when absent. -/
def lookupCount : List (String × Nat) → String → Nat
  | [], _ => 0
  | p :: rest, k => if p.1 = k then p.2 else lookupCount rest k

/-- The seven typed-array views built in the repository's
`everyItemHasAUniqueRealType` test fixture. -/
def typedArrayViews : List JSValue :=
  [.obj .int8Array, .obj .uint8Array, .obj .int16Array, .obj .uint16Array,
    .obj .int32Array, .obj .uint32Array, .obj .uint8ClampedArray]

/-! ### The modelled string order agrees with Lean's `String` order -/

theorem char_lt_iff_toNat_lt {a b : Char} : a < b ↔ a.toNat < b.toNat := by
  simp [Char.lt_iff_val_lt_val, UInt32.lt_def, BitVec.lt_def, Char.toNat, UInt32.toNat]

theorem char_toNat_inj {a b : Char} (h : a.toNat = b.toNat) : a = b :=
  Char.ext (UInt32.toNat.inj h)

theorem jsStrLtChars_iff_lex :
    ∀ as bs : List Char, jsStrLtChars as bs = true ↔ List.Lex (· < ·) as bs := by
  intro as
  induction as with
  | nil =>
    intro bs
    cases bs with
    | nil =>
      simp only [jsStrLtChars]
      exact ⟨fun h => by simp at h, fun h => absurd h nofun⟩
    | cons b bs =>
      simp only [jsStrLtChars]
      exact ⟨fun _ => List.Lex.nil, fun _ => trivial⟩
  | cons a as ih =>
    intro bs
    cases bs with
    | nil =>
      simp only [jsStrLtChars]
      exact ⟨fun h => by simp at h, fun h => absurd h nofun⟩
    | cons b bs =>
      simp only [jsStrLtChars, Bool.or_eq_true, Bool.and_eq_true, decide_eq_true_eq,
        beq_iff_eq]
      constructor
      · rintro (h | ⟨heq, hrec⟩)
        · exact List.Lex.rel (char_lt_iff_toNat_lt.mpr h)
        · have heq' : a = b := char_toNat_inj heq
          subst heq'
          exact List.Lex.cons ((ih bs).mp hrec)
      · intro h
        cases h with
        | cons hrec => exact Or.inr ⟨rfl, (ih bs).mpr hrec⟩
        | rel hlt => exact Or.inl (char_lt_iff_toNat_lt.mp hlt)

theorem jsStrLt_iff_lt (a b : String) : jsStrLt a b = true ↔ a < b := by
  rw [String.lt_iff_toList_lt]
  exact jsStrLtChars_iff_lex a.data b.data

theorem entryLE_iff (a b : String × Nat) : entryLE a b ↔ a.1 ≤ b.1 := by
  simp only [entryLE, compareFn, jsStrLt_iff_lt]
  split_ifs with h1 h2
  · simp [le_of_lt h1]
  · constructor
    · intro h; omega
    · intro h; exact absurd h2 (not_lt.mpr h)
  · simp [not_lt.mp h2]

/-! ### Properties of the count-map accumulation -/

theorem keysOf_insertCount (m : List (String × Nat)) (k : String) :
    keysOf (insertCount m k) = if k ∈ keysOf m then keysOf m else keysOf m ++ [k] := by
  simp only [keysOf]
  induction m with
  | nil => simp [insertCount]
  | cons p rest ih =>
    by_cases h : p.1 = k
    · simp [insertCount, h]
    · have hne : ¬ k = p.1 := fun hh => h hh.symm
      rw [insertCount, if_neg h, List.map_cons, ih, List.map_cons]
      by_cases hk : k ∈ List.map Prod.fst rest
      · simp [hk, hne]
      · simp [hk, hne]

theorem sumCounts_insertCount (m : List (String × Nat)) (k : String) :
    sumCounts (insertCount m k) = sumCounts m + 1 := by
  induction m with
  | nil => simp [insertCount, sumCounts]
  | cons p rest ih =>
    by_cases h : p.1 = k
    · simp [insertCount, sumCounts, h]
      omega
    · simp only [insertCount, if_neg h, sumCounts, List.map_cons, List.sum_cons] at ih ⊢
      omega

theorem pos_insertCount (m : List (String × Nat)) (k : String)
    (h : ∀ p ∈ m, 0 < p.2) : ∀ p ∈ insertCount m k, 0 < p.2 := by
  induction m with
  | nil =>
    intro p hp
    simp [insertCount] at hp
    simp [hp]
  | cons q rest ih =>
    intro p hp
    by_cases hq : q.1 = k
    · rw [insertCount, if_pos hq] at hp
      rcases List.mem_cons.mp hp with he | hm
      · have hq2 := h q (List.mem_cons_self q rest)
        rw [he]
        exact Nat.lt_of_lt_of_le hq2 (Nat.le_succ _)
      · exact h p (List.mem_cons_of_mem q hm)
    · rw [insertCount, if_neg hq] at hp
      rcases List.mem_cons.mp hp with he | hm
      · exact he ▸ h q (List.mem_cons_self q rest)
      · exact ih (fun r hr => h r (List.mem_cons_of_mem q hr)) p hm

theorem lookupCount_insertCount_self (m : List (String × Nat)) (k : String) :
    lookupCount (insertCount m k) k = lookupCount m k + 1 := by
  induction m with
  | nil => simp [insertCount, lookupCount]
  | cons p rest ih =>
    by_cases h : p.1 = k
    · rw [insertCount, if_pos h, lookupCount, if_pos h, lookupCount, if_pos h]
    · rw [insertCount, if_neg h, lookupCount, if_neg h, lookupCount, if_neg h]
      exact ih

theorem lookupCount_insertCount_ne (m : List (String × Nat)) (k q : String)
    (hq : q ≠ k) : lookupCount (insertCount m k) q = lookupCount m q := by
  induction m with
  | nil =>
    rw [insertCount, lookupCount, lookupCount, if_neg (fun hh => hq hh.symm)]
    rfl
  | cons p rest ih =>
    by_cases h : p.1 = k
    · have hpq : ¬ p.1 = q := fun hh => hq (hh ▸ h.symm ▸ rfl)
      rw [insertCount, if_pos h, lookupCount, lookupCount, if_neg hpq, if_neg hpq]
    · by_cases hpq : p.1 = q
      · rw [insertCount, if_neg h, lookupCount, lookupCount, if_pos hpq, if_pos hpq]
      · rw [insertCount, if_neg h, lookupCount, lookupCount, if_neg hpq, if_neg hpq]
        exact ih

theorem mem_keysOf_iff_lookupCount_pos (m : List (String × Nat)) (k : String)
    (hpos : ∀ p ∈ m, 0 < p.2) : k ∈ keysOf m ↔ 0 < lookupCount m k := by
  induction m with
  | nil => simp [keysOf, lookupCount]
  | cons p rest ih =>
    by_cases h : p.1 = k
    · rw [lookupCount, if_pos h]
      constructor
      · intro _
        exact hpos p (List.mem_cons_self p rest)
      · intro _
        simp [keysOf, h.symm]
    · have hne : ¬ k = p.1 := fun hh => h hh.symm
      rw [lookupCount, if_neg h]
      simp only [keysOf, List.map_cons, List.mem_cons, hne, false_or]
      exact ih (fun q hq => hpos q (List.mem_cons_of_mem p hq))

theorem mem_iff_lookupCount (m : List (String × Nat)) (k : String) (c : Nat)
    (hk : (keysOf m).Nodup) :
    (k, c) ∈ m ↔ (k ∈ keysOf m ∧ lookupCount m k = c) := by
  induction m with
  | nil => simp [keysOf, lookupCount]
  | cons p rest ih =>
    have hk' : (p.1 :: List.map Prod.fst rest).Nodup := hk
    rw [List.nodup_cons] at hk'
    have hk1 : p.1 ∉ List.map Prod.fst rest := hk'.1
    have hk2 : (List.map Prod.fst rest).Nodup := hk'.2
    by_cases h : p.1 = k
    · subst h
      rw [lookupCount, if_pos rfl]
      constructor
      · intro hmem
        rcases List.mem_cons.mp hmem with he | hm
        · refine ⟨by simp [keysOf], ?_⟩
          have : c = p.2 := (Prod.ext_iff.mp he).2
          omega
        · exact absurd (List.mem_map_of_mem Prod.fst hm) hk1
      · rintro ⟨-, hc⟩
        have he : (p.1, c) = p := Prod.ext_iff.mpr ⟨rfl, hc.symm⟩
        rw [he]
        exact List.mem_cons_self p rest
    · have hne : ¬ k = p.1 := fun hh => h hh.symm
      rw [lookupCount, if_neg h]
      have hmem : k ∈ keysOf (p :: rest) ↔ k ∈ keysOf rest := by
        simp [keysOf, hne]
      rw [hmem, ← ih hk2]
      constructor
      · intro hmemc
        rcases List.mem_cons.mp hmemc with he | hm
        · exact absurd (Prod.ext_iff.mp he).1.symm h
        · exact hm
      · intro hm
        exact List.mem_cons_of_mem p hm

theorem foldl_insertCount_invariant (arr : List JSValue) :
    ∀ m : List (String × Nat), (keysOf m).Nodup → (∀ p ∈ m, 0 < p.2) →
      (keysOf (arr.foldl (fun acc element => insertCount acc (getRealType element)) m)).Nodup
      ∧ (∀ p ∈ arr.foldl (fun acc element => insertCount acc (getRealType element)) m, 0 < p.2)
      ∧ (∀ k, lookupCount (arr.foldl (fun acc element => insertCount acc (getRealType element)) m) k
          = lookupCount m k + (arr.map getRealType).count k)
      ∧ sumCounts (arr.foldl (fun acc element => insertCount acc (getRealType element)) m)
          = sumCounts m + arr.length := by
  induction arr with
  | nil =>
    intro m h1 h2
    refine ⟨h1, h2, fun k => ?_, ?_⟩ <;> simp
  | cons a rest ih =>
    intro m h1 h2
    rw [List.foldl_cons]
    have hk' : (keysOf (insertCount m (getRealType a))).Nodup := by
      rw [keysOf_insertCount]
      by_cases hmem : getRealType a ∈ keysOf m
      · rw [if_pos hmem]; exact h1
      · rw [if_neg hmem]
        rw [List.nodup_append]
        refine ⟨h1, List.nodup_singleton _, ?_⟩
        intro x hx
        simp only [List.mem_singleton]
        intro hxa
        exact hmem (hxa ▸ hx)
    have hp' : ∀ p ∈ insertCount m (getRealType a), 0 < p.2 :=
      pos_insertCount m (getRealType a) h2
    obtain ⟨n1, p1, l1, s1⟩ := ih (insertCount m (getRealType a)) hk' hp'
    refine ⟨n1, p1, ?_, ?_⟩
    · intro k
      rw [l1 k, List.map_cons, List.count_cons]
      by_cases hak : getRealType a = k
      · subst hak
        rw [lookupCount_insertCount_self]
        simp
        omega
      · rw [lookupCount_insertCount_ne m (getRealType a) k (fun hh => hak hh.symm)]
        simp [hak]
    · rw [s1, sumCounts_insertCount, List.length_cons]
      omega

theorem accumCounts_keys_nodup (arr : List JSValue) : (keysOf (accumCounts arr)).Nodup :=
  (foldl_insertCount_invariant arr [] (by simp [keysOf]) (by simp)).1

theorem accumCounts_pos (arr : List JSValue) : ∀ p ∈ accumCounts arr, 0 < p.2 :=
  (foldl_insertCount_invariant arr [] (by simp [keysOf]) (by simp)).2.1

theorem accumCounts_lookup (arr : List JSValue) (k : String) :
    lookupCount (accumCounts arr) k = (arr.map getRealType).count k := by
  have := (foldl_insertCount_invariant arr [] (by simp [keysOf]) (by simp)).2.2.1 k
  simpa [accumCounts, lookupCount] using this

theorem accumCounts_sum (arr : List JSValue) : sumCounts (accumCounts arr) = arr.length := by
  have := (foldl_insertCount_invariant arr [] (by simp [keysOf]) (by simp)).2.2.2
  simpa [accumCounts, sumCounts] using this

theorem mem_keysOf_accumCounts (arr : List JSValue) (k : String) :
    k ∈ keysOf (accumCounts arr) ↔ k ∈ arr.map getRealType := by
  rw [mem_keysOf_iff_lookupCount_pos (accumCounts arr) k (accumCounts_pos arr),
    accumCounts_lookup]
  exact List.count_pos_iff

theorem mem_accumCounts (arr : List JSValue) (k : String) (c : Nat) :
    (k, c) ∈ accumCounts arr ↔ (k ∈ arr.map getRealType ∧ (arr.map getRealType).count k = c) := by
  rw [mem_iff_lookupCount (accumCounts arr) k c (accumCounts_keys_nodup arr),
    accumCounts_lookup, mem_keysOf_accumCounts]

/-! ### Properties of the sorted output of `countRealTypes` -/

theorem countRealTypes_perm_accum (arr : List JSValue) :
    List.Perm (countRealTypes arr) (accumCounts arr) :=
  List.perm_insertionSort entryLE (accumCounts arr)

theorem mem_countRealTypes (arr : List JSValue) (k : String) (c : Nat) :
    (k, c) ∈ countRealTypes arr
      ↔ (k ∈ arr.map getRealType ∧ (arr.map getRealType).count k = c) :=
  ((countRealTypes_perm_accum arr).mem_iff).trans (mem_accumCounts arr k c)

theorem countRealTypes_sorted_entryLE (arr : List JSValue) :
    List.Sorted entryLE (countRealTypes arr) := by
  haveI : IsTotal (String × Nat) entryLE := ⟨fun a b => by
    rcases le_total a.1 b.1 with h | h
    · exact Or.inl ((entryLE_iff a b).mpr h)
    · exact Or.inr ((entryLE_iff b a).mpr h)⟩
  haveI : IsTrans (String × Nat) entryLE := ⟨fun a b c hab hbc =>
    (entryLE_iff a c).mpr (le_trans ((entryLE_iff a b).mp hab) ((entryLE_iff b c).mp hbc))⟩
  exact List.sorted_insertionSort entryLE (accumCounts arr)

theorem countRealTypes_keys_nodup (arr : List JSValue) :
    (keysOf (countRealTypes arr)).Nodup := by
  have hperm : List.Perm (keysOf (countRealTypes arr)) (keysOf (accumCounts arr)) :=
    (countRealTypes_perm_accum arr).map Prod.fst
  exact hperm.nodup_iff.mpr (accumCounts_keys_nodup arr)

theorem countRealTypes_pairwise_lt (arr : List JSValue) :
    (countRealTypes arr).Pairwise (fun a b => a.1 < b.1) := by
  have hs : (countRealTypes arr).Pairwise entryLE := countRealTypes_sorted_entryLE arr
  have hn : (countRealTypes arr).Pairwise (fun a b => a.1 ≠ b.1) :=
    List.pairwise_map.mp (countRealTypes_keys_nodup arr)
  exact (hs.and hn).imp (fun h => lt_of_le_of_ne ((entryLE_iff _ _).mp h.1) h.2)

theorem countRealTypes_entry_nodup (arr : List JSValue) :
    (countRealTypes arr).Nodup :=
  (countRealTypes_pairwise_lt arr).imp
    (fun {_ b} h heq => absurd (heq ▸ h) (lt_irrefl b.1))

/-! ### Evaluation helpers for the numeric branch -/

theorem getRealType_num_nan : getRealType (JSValue.num JSNum.nan) = "NaN" := rfl

theorem getRealType_num_posInf : getRealType (JSValue.num JSNum.posInf) = "Infinity" := rfl

theorem getRealType_num_negInf : getRealType (JSValue.num JSNum.negInf) = "Infinity" := rfl

theorem getRealType_num_finite (q : ℚ) :
    getRealType (JSValue.num (JSNum.finite q)) = "number" := rfl

/-! ### Claims -/

/-- C1 is false as stated: `allItemsHaveTheSameType` is computed from the
coarse `typeof` tags (`getType`), not from the real-type classifier. On
`[NaN, 1]` it returns true although the set of classified TypeTags has
cardinality 2, and on `[]` it returns false although the set of classified
TypeTags has cardinality 0 (which is at most 1). -/
theorem allItemsHaveTheSameType_realtype_counterexample :
    allItemsHaveTheSameType [JSValue.num JSNum.nan, JSValue.num (JSNum.finite 1)] = true
    ∧ ([JSValue.num JSNum.nan, JSValue.num (JSNum.finite 1)].map getRealType).toFinset.card = 2
    ∧ allItemsHaveTheSameType [] = false
    ∧ (([] : List JSValue).map getRealType).toFinset.card = 0 :=
  ⟨by decide, by decide, by decide, by decide⟩

/-- C1 (amended): for every finite sequence, `allItemsHaveTheSameType`
returns true if and only if the set of coarse `typeof` tags (`getType`)
of its elements has cardinality exactly 1 (hence false on the empty
sequence, and independent of `getRealType`). -/
theorem allItemsHaveTheSameType_iff_coarse (arr : List JSValue) :
    allItemsHaveTheSameType arr = true ↔ (arr.map getType).toFinset.card = 1 := by
  rw [List.card_toFinset]
  simp [allItemsHaveTheSameType, setSize]

/-- Instance of the C1 amended theorem at a concrete one-element input. -/
theorem allItemsHaveTheSameType_iff_coarse_witness :
    allItemsHaveTheSameType [JSValue.null] = true
      ↔ ([JSValue.null].map getType).toFinset.card = 1 :=
  allItemsHaveTheSameType_iff_coarse [JSValue.null]

/-- C2 is false as stated: on the empty sequence `allItemsHaveTheSameType`
returns false (the tag set has size 0 and the code requires size 1). -/
theorem allItemsHaveTheSameType_empty_counterexample :
    allItemsHaveTheSameType [] = false := by decide

/-- C2 (amended): `allItemsHaveTheSameType([])` returns false, while for
every single value x, `allItemsHaveTheSameType([x])` returns true. -/
theorem allItemsHaveTheSameType_empty_singleton :
    allItemsHaveTheSameType [] = false
    ∧ ∀ x : JSValue, allItemsHaveTheSameType [x] = true := by
  refine ⟨by decide, fun x => ?_⟩
  simp [allItemsHaveTheSameType, setSize]

/-- Instance of the C2 amended theorem at a concrete value. -/
theorem allItemsHaveTheSameType_empty_singleton_witness :
    allItemsHaveTheSameType [] = false ∧ allItemsHaveTheSameType [JSValue.undef] = true :=
  ⟨allItemsHaveTheSameType_empty_singleton.1,
    allItemsHaveTheSameType_empty_singleton.2 JSValue.undef⟩

/-- C3 is false as stated: a boxed string is NOT classified differently from
"string" — it misses every `instanceof` test and the fallback lower-cases
its "String" tag, so `getRealType` returns "string". -/
theorem getRealType_boxedString_counterexample :
    getRealType (JSValue.obj ObjKind.boxedString) = "string" := by decide

/-- C3 (amended): boxed numbers classify as "number" (through the explicit
`instanceof Number` check) and boxed strings also classify as "string"
(through the fallback rule), so boxed numbers are not an exception. -/
theorem getRealType_boxed_primitives :
    getRealType (JSValue.obj ObjKind.boxedNumber) = "number"
    ∧ getRealType (JSValue.obj ObjKind.boxedString) = "string" :=
  ⟨by decide, by decide⟩

/-- C4: every value whose coarse tag is "number" is a numeric value, and on
these `getRealType` returns "NaN" exactly for the NaN sentinel, "Infinity"
exactly for the two infinities (which collapse), and "number" otherwise;
the three outcomes are pairwise distinct. -/
theorem getRealType_on_numbers (v : JSValue) (h : getType v = "number") :
    (∃ n : JSNum, v = JSValue.num n)
    ∧ (getRealType v = "NaN" ↔ v = JSValue.num JSNum.nan)
    ∧ (getRealType v = "Infinity"
        ↔ (v = JSValue.num JSNum.posInf ∨ v = JSValue.num JSNum.negInf))
    ∧ (v ≠ JSValue.num JSNum.nan → v ≠ JSValue.num JSNum.posInf →
        v ≠ JSValue.num JSNum.negInf → getRealType v = "number")
    ∧ getRealType (JSValue.num JSNum.nan) ≠ getRealType (JSValue.num JSNum.posInf)
    ∧ getRealType (JSValue.num JSNum.nan) ≠ getRealType (JSValue.num (JSNum.finite 0))
    ∧ getRealType (JSValue.num JSNum.posInf) ≠ getRealType (JSValue.num (JSNum.finite 0)) := by
  cases v with
  | num n =>
    cases n with
    | nan =>
      refine ⟨⟨JSNum.nan, rfl⟩, by simp [getRealType_num_nan], by decide, ?_,
        by decide, by decide, by decide⟩
      intro h1 _ _
      exact absurd rfl h1
    | posInf =>
      refine ⟨⟨JSNum.posInf, rfl⟩, by decide, by simp [getRealType_num_posInf], ?_,
        by decide, by decide, by decide⟩
      intro _ h2 _
      exact absurd rfl h2
    | negInf =>
      refine ⟨⟨JSNum.negInf, rfl⟩, by decide, by simp [getRealType_num_negInf], ?_,
        by decide, by decide, by decide⟩
      intro _ _ h3
      exact absurd rfl h3
    | finite q =>
      refine ⟨⟨JSNum.finite q, rfl⟩, ?_, ?_, fun _ _ _ => getRealType_num_finite q,
        by decide, by decide, by decide⟩
      · rw [getRealType_num_finite]
        constructor
        · intro hh
          exact absurd hh (by decide)
        · intro hh
          simp at hh
      · rw [getRealType_num_finite]
        constructor
        · intro hh
          exact absurd hh (by decide)
        · rintro (hh | hh) <;> simp at hh
  | bool b => simp [getType] at h
  | str s => simp [getType] at h
  | undef => simp [getType] at h
  | null => simp [getType] at h
  | sym id => simp [getType] at h
  | fn id => simp [getType] at h
  | obj k => simp [getType] at h

/-- Instance of the C4 theorem at the NaN sentinel. -/
theorem getRealType_on_numbers_witness :
    (∃ n : JSNum, JSValue.num JSNum.nan = JSValue.num n)
    ∧ (getRealType (JSValue.num JSNum.nan) = "NaN"
        ↔ JSValue.num JSNum.nan = JSValue.num JSNum.nan)
    ∧ (getRealType (JSValue.num JSNum.nan) = "Infinity"
        ↔ (JSValue.num JSNum.nan = JSValue.num JSNum.posInf
          ∨ JSValue.num JSNum.nan = JSValue.num JSNum.negInf))
    ∧ (JSValue.num JSNum.nan ≠ JSValue.num JSNum.nan
        → JSValue.num JSNum.nan ≠ JSValue.num JSNum.posInf
        → JSValue.num JSNum.nan ≠ JSValue.num JSNum.negInf
        → getRealType (JSValue.num JSNum.nan) = "number")
    ∧ getRealType (JSValue.num JSNum.nan) ≠ getRealType (JSValue.num JSNum.posInf)
    ∧ getRealType (JSValue.num JSNum.nan) ≠ getRealType (JSValue.num (JSNum.finite 0))
    ∧ getRealType (JSValue.num JSNum.posInf) ≠ getRealType (JSValue.num (JSNum.finite 0)) :=
  getRealType_on_numbers (JSValue.num JSNum.nan) rfl

/-- C5: for every input sequence the output of `countRealTypes` satisfies:
the counts sum to the input length, no TypeTag occurs in two entries, a
TypeTag appears among the keys exactly when it is the classification of some
input element, and every count is positive. -/
theorem countRealTypes_invariants (arr : List JSValue) :
    sumCounts (countRealTypes arr) = arr.length
    ∧ (keysOf (countRealTypes arr)).Nodup
    ∧ (∀ t : String, t ∈ keysOf (countRealTypes arr) ↔ t ∈ arr.map getRealType)
    ∧ (∀ p ∈ countRealTypes arr, 0 < p.2) := by
  refine ⟨?_, countRealTypes_keys_nodup arr, ?_, ?_⟩
  · have hperm := (countRealTypes_perm_accum arr).map Prod.snd
    rw [sumCounts, hperm.sum_eq, ← sumCounts, accumCounts_sum]
  · intro t
    have hperm := (countRealTypes_perm_accum arr).map Prod.fst
    exact Iff.trans hperm.mem_iff (mem_keysOf_accumCounts arr t)
  · intro p hp
    exact accumCounts_pos arr p ((countRealTypes_perm_accum arr).mem_iff.mp hp)

/-- Instance of the C5 theorem at a concrete three-element input. -/
theorem countRealTypes_invariants_witness :
    sumCounts (countRealTypes [JSValue.null, JSValue.bool true, JSValue.null]) = 3
    ∧ ("null" ∈ keysOf (countRealTypes [JSValue.null, JSValue.bool true, JSValue.null])
        ↔ "null" ∈ [JSValue.null, JSValue.bool true, JSValue.null].map getRealType) := by
  have h := countRealTypes_invariants [JSValue.null, JSValue.bool true, JSValue.null]
  exact ⟨h.1, h.2.2.1 "null"⟩

/-- C6: the entries of `countRealTypes` are strictly ascending in their
TypeTag key, both for Lean's lexicographic `String` order and for the
modelled JavaScript code-point comparison `jsStrLt` used by `compareFn`. -/
theorem countRealTypes_sorted (arr : List JSValue) :
    (countRealTypes arr).Pairwise (fun a b => a.1 < b.1)
    ∧ (countRealTypes arr).Pairwise (fun a b => jsStrLt a.1 b.1 = true) := by
  have h := countRealTypes_pairwise_lt arr
  exact ⟨h, h.imp (fun hh => (jsStrLt_iff_lt _ _).mpr hh)⟩

/-- Instance of the C6 theorem at a concrete two-element input. -/
theorem countRealTypes_sorted_witness :
    (countRealTypes [JSValue.obj ObjKind.plain, JSValue.null]).Pairwise
      (fun a b => a.1 < b.1)
    ∧ (countRealTypes [JSValue.obj ObjKind.plain, JSValue.null]).Pairwise
      (fun a b => jsStrLt a.1 b.1 = true) :=
  countRealTypes_sorted [JSValue.obj ObjKind.plain, JSValue.null]

/-- C7: `countRealTypes` is permutation-invariant, and on the fixture
`[true, null, !null, !!null, {}]` (i.e. `[true, null, true, false, {}]`) it
returns `[("boolean", 3), ("null", 1), ("object", 1)]`. -/
theorem countRealTypes_perm_invariant (arr brr : List JSValue) (h : List.Perm arr brr) :
    countRealTypes arr = countRealTypes brr
    ∧ countRealTypes [JSValue.bool true, JSValue.null, JSValue.bool true, JSValue.bool false,
        JSValue.obj ObjKind.plain] = [("boolean", 3), ("null", 1), ("object", 1)] := by
  constructor
  · haveI : IsAntisymm (String × Nat) (fun a b => a.1 < b.1) :=
      ⟨fun a b h1 h2 => absurd h2 (not_lt.mpr (le_of_lt h1))⟩
    refine List.eq_of_perm_of_sorted ?_ (countRealTypes_pairwise_lt arr)
      (countRealTypes_pairwise_lt brr)
    have hmap : List.Perm (arr.map getRealType) (brr.map getRealType) := h.map getRealType
    refine (List.perm_ext_iff_of_nodup (countRealTypes_entry_nodup arr)
      (countRealTypes_entry_nodup brr)).mpr ?_
    rintro ⟨k, c⟩
    rw [mem_countRealTypes, mem_countRealTypes, hmap.mem_iff, hmap.count_eq]
  · decide

/-- Instance of the C7 theorem at the fixture and one of its reorderings. -/
theorem countRealTypes_perm_invariant_witness :
    countRealTypes [JSValue.bool true, JSValue.null, JSValue.bool true, JSValue.bool false,
        JSValue.obj ObjKind.plain]
      = countRealTypes [JSValue.obj ObjKind.plain, JSValue.null, JSValue.bool true,
        JSValue.bool true, JSValue.bool false]
    ∧ countRealTypes [JSValue.bool true, JSValue.null, JSValue.bool true, JSValue.bool false,
        JSValue.obj ObjKind.plain] = [("boolean", 3), ("null", 1), ("object", 1)] :=
  countRealTypes_perm_invariant _ _ (by decide)

/-- C8: `everyItemHasAUniqueRealType` returns true iff the number of distinct
classified TypeTags equals the input length, equivalently iff the list of
classified TypeTags has no duplicate; on the empty sequence it returns
true. -/
theorem everyItemHasAUniqueRealType_iff (arr : List JSValue) :
    (everyItemHasAUniqueRealType arr = true
      ↔ (arr.map getRealType).toFinset.card = arr.length)
    ∧ (everyItemHasAUniqueRealType arr = true ↔ (arr.map getRealType).Nodup)
    ∧ everyItemHasAUniqueRealType [] = true := by
  have hcard : (arr.map getRealType).toFinset.card = (arr.map getRealType).dedup.length :=
    List.card_toFinset _
  have h1 : everyItemHasAUniqueRealType arr = true
      ↔ (arr.map getRealType).dedup.length = arr.length := by
    simp [everyItemHasAUniqueRealType, setSize]
  refine ⟨by rw [h1, hcard], ?_, by decide⟩
  rw [h1]
  constructor
  · intro hlen
    have hsub : (arr.map getRealType).dedup.Sublist (arr.map getRealType) :=
      List.dedup_sublist _
    have heq : (arr.map getRealType).dedup = arr.map getRealType :=
      hsub.eq_of_length (by rw [hlen, List.length_map])
    rw [← heq]
    exact List.nodup_dedup _
  · intro hnd
    rw [List.Nodup.dedup hnd, List.length_map]

/-- Instance of the C8 theorem at a concrete one-element input. -/
theorem everyItemHasAUniqueRealType_iff_witness :
    (everyItemHasAUniqueRealType [JSValue.null] = true
      ↔ ([JSValue.null].map getRealType).toFinset.card = [JSValue.null].length)
    ∧ (everyItemHasAUniqueRealType [JSValue.null] = true
      ↔ ([JSValue.null].map getRealType).Nodup)
    ∧ everyItemHasAUniqueRealType [] = true :=
  everyItemHasAUniqueRealType_iff [JSValue.null]

/-- C9: concrete classifications of the seven basic fixtures. -/
theorem getRealType_concrete_values :
    getRealType (JSValue.bool true) = "boolean"
    ∧ getRealType (JSValue.num (JSNum.finite 123)) = "number"
    ∧ getRealType (JSValue.str "whoo") = "string"
    ∧ getRealType (JSValue.obj ObjKind.array) = "array"
    ∧ getRealType (JSValue.obj ObjKind.plain) = "object"
    ∧ getRealType JSValue.undef = "undefined"
    ∧ getRealType JSValue.null = "null" :=
  ⟨by decide, by decide, by decide, by decide, by decide, by decide, by decide⟩

/-- C10: the seven typed-array views each get their own TypeTag, produced by
the fallback rule (the lower-cased runtime tag); the seven tags are pairwise
distinct and none of them is "array". -/
theorem typedArray_distinct_realtypes :
    typedArrayViews.map getRealType
      = ["int8array", "uint8array", "int16array", "uint16array", "int32array",
        "uint32array", "uint8clampedarray"]
    ∧ (typedArrayViews.map getRealType).Nodup
    ∧ typedArrayViews.map getRealType
      = typedArrayViews.map (fun v => jsToLowerCase (protoToStringTag v))
    ∧ (typedArrayViews.map getRealType).contains "array" = false
    ∧ everyItemHasAUniqueRealType typedArrayViews = true :=
  ⟨by decide, by decide, by decide, by decide, by decide⟩
